import Mathlib

/-!
Verification of the go-oryx load-balancer core against its specification.

The Go sources are shallowly embedded: Go strings become `List Char`, Go maps
with pointer values become association lists into an arena of records, machine
integers become `Int`/`Nat`, channel-blocking operations become step relations,
and fallible operations return `Option`/`Except`.

Components embedded below:
- AMF0 string codec (`Amf0String.MarshalBinary`/`UnmarshalBinary`, protocol pkg);
- backend selector / control API (`proxy.serveChangeBackendApi` of httplb,
  identical logic to `proxy.serveApi` of rtmplb);
- RTMP backend-connect retry loop (`proxy.serveRtmp` of rtmplb);
- listener multiplexer dispose semantics (`kernel.TcpListeners`);
- HTTP suffix routing (`proxy.serveHttp` of httplb);
- port allocator (modelled from the spec; implementation absent from sources);
- HLS+ affinity proxy (`hlsPlusProxy.serve` / `hlsPlusProxy.cleanup` of httplb).
-/

/-- Go strings are byte/char sequences; we embed them as `List Char`. -/
abbrev GoStr := List Char

/-- `strings.HasSuffix(s, suffix)`. -/
def goHasSuffix (s suffix : GoStr) : Bool := suffix.isSuffixOf s

/-- Digit run to a natural number, as `strconv.Atoi` accumulates base-10 digits. -/
def digitsToNat (cs : GoStr) : Nat := cs.foldl (fun a c => a * 10 + (c.toNat - 48)) 0

/-- Core of `strconv.Atoi` after the optional sign: a non-empty all-digit run
within the 64-bit signed integer range, otherwise an error (`none`). -/
def atoiCore (sign : Int) (rest : GoStr) : Option Int :=
  if rest.length = 0 then none
  else if rest.all Char.isDigit then
    if -9223372036854775808 ≤ sign * (digitsToNat rest : Int) ∧
        sign * (digitsToNat rest : Int) ≤ 9223372036854775807 then
      some (sign * (digitsToNat rest : Int))
    else none
  else none

/-- `strconv.Atoi`: optional leading sign, then digits; errors on empty,
non-numeric or out-of-range input. -/
def atoi (s : GoStr) : Option Int :=
  match s with
  | '-' :: rest => atoiCore (-1) rest
  | '+' :: rest => atoiCore 1 rest
  | _ => atoiCore 1 s

/-! ## AMF0 string codec (src/unnamed/part_000, protocol package, lines 602-654) -/

/-- `MarkerAmf0String = 0x02`. -/
def MarkerAmf0String : Nat := 2

/-- `Amf0String.Size()`: `1 + 2 + len(*s)`. -/
def amf0StringSize (s : List Nat) : Nat := 1 + 2 + s.length

/-- `Amf0String.MarshalBinary`: marker byte, big-endian `uint16(len)` (the Go
length is truncated to 16 bits by the `uint16` conversion), then the bytes. -/
def amf0StringMarshal (s : List Nat) : List Nat :=
  MarkerAmf0String :: (s.length % 65536) / 256 :: (s.length % 65536) % 256 :: s

/-- `Amf0String.UnmarshalBinary`: read the marker byte (error on empty input or
wrong marker), read the big-endian `uint16` length `nb` (error when fewer than
two bytes remain), then `b.Read` into a fresh `nb`-byte buffer: `bytes.Buffer.Read`
returns `io.EOF` only when the buffer is empty and `nb > 0`; a short read leaves
the zero-initialized tail of the buffer in place. -/
def amf0StringUnmarshal (data : List Nat) : Option (List Nat) :=
  match data with
  | [] => none
  | m :: rest =>
    if m = MarkerAmf0String then
      match rest with
      | b1 :: b2 :: rest2 =>
        if 0 < b1 * 256 + b2 ∧ rest2 = [] then none
        else some (rest2.take (b1 * 256 + b2) ++
          List.replicate (b1 * 256 + b2 - rest2.length) 0)
      | _ => none
    else none

/-! ## Backend selector / control API (src/unnamed/part_000 lines 349-380;
the rtmplb handler `proxy.serveApi`, src/rtmplb/main.go lines 220-246, performs
the identical validation and update with query key `rtmp` instead of `http`). -/

/-- The mutable part of the `proxy` struct read by both load balancers:
the known backend ports and the active one (Go zero values: nil slice, 0). -/
structure proxy where
  ports : List Int
  activePort : Int
deriving DecidableEq

/-- `hasProxyed(port)`: linear scan of `v.ports`. -/
def hasProxyed (ports : List Int) (port : Int) : Bool := ports.any (fun p => p == port)

/-- `proxy.serveChangeBackendApi`: reject a missing (`len == 0`) or
non-`Atoi`-parseable port with `ApiProxyQuery` (`false` here) leaving the state
unchanged; otherwise append the port to `ports` if new and make it active. -/
def proxy.serveChangeBackendApi (v : proxy) (httpPort : GoStr) : proxy × Bool :=
  if httpPort.length = 0 then (v, false)
  else
    match atoi httpPort with
    | none => (v, false)
    | some port =>
      ({ ports := if hasProxyed v.ports port then v.ports else v.ports ++ [port],
         activePort := port }, true)

/-- States of the backend selector reachable by any sequence of control-API
calls from the initial zero-valued `proxy`. -/
inductive reachableProxy : proxy → Prop
  | init : reachableProxy ⟨[], 0⟩
  | step (s : proxy) (q : GoStr) : reachableProxy s →
      reachableProxy (s.serveChangeBackendApi q).1

/-! ## RTMP backend-connect retry loop (src/rtmplb/main.go lines 107-161) -/

/-- `RetryMax = 3`. -/
def RetryMax : Nat := 3

/-- `RetryBackend = 3 * time.Second`, in seconds. -/
def RetryBackendSeconds : Nat := 3

/-- Observable outcome of the connect phase of `proxy.serveRtmp`: which dial
attempt (if any) produced the backend connection, how many dials were issued,
and how many `RetryBackend` sleeps were performed. -/
structure DialOutcome where
  backend : Option Nat
  dials : Nat
  sleeps : Nat
deriving DecidableEq

/-- The `for i := 0; i < RetryMax && backend == nil; i++` loop around
`connectBackend`: when `activePort <= 0` the closure returns an error before
any dial (and its deferred block sleeps because `backend` is still nil);
otherwise it dials once (`dialOk` is the oracle for `net.DialTimeout`),
sleeping on failure. -/
def rtmpConnectLoop (activePort : Int) (dialOk : Nat → Bool) :
    Nat → Nat → DialOutcome → DialOutcome
  | 0, _, acc => acc
  | n + 1, i, acc =>
    match acc.backend with
    | some _ => acc
    | none =>
      if activePort ≤ 0 then
        rtmpConnectLoop activePort dialOk n (i + 1) ⟨none, acc.dials, acc.sleeps + 1⟩
      else if dialOk i then
        rtmpConnectLoop activePort dialOk n (i + 1) ⟨some i, acc.dials + 1, acc.sleeps⟩
      else
        rtmpConnectLoop activePort dialOk n (i + 1) ⟨none, acc.dials + 1, acc.sleeps + 1⟩

/-- Connect phase of `proxy.serveRtmp` for one accepted client. -/
def serveRtmpConnect (activePort : Int) (dialOk : Nat → Bool) : DialOutcome :=
  rtmpConnectLoop activePort dialOk RetryMax 0 ⟨none, 0, 0⟩

/-- When the loop ends with no backend, `serveRtmp` returns at once and the
deferred `client.Close()` (source line 127) closes the client connection. -/
def serveRtmpClosesWithoutBackend (activePort : Int) (dialOk : Nat → Bool) : Bool :=
  (serveRtmpConnect activePort dialOk).backend.isNone

/-! ## Listener multiplexer (src/kernel/listener.go) -/

/-- `ListenerDisposed` is the only kernel error the claims mention. -/
inductive GoErr
  | listenerDisposed
deriving DecidableEq

/-- State of a `TcpListeners`: the dispose flag, the bound sockets, a count of
underlying `net.TCPListener.Close()` calls performed, the connections and
errors currently offered on the (unbuffered) `conns`/`errors` channels by the
accept goroutines, and whether those channels have been closed. -/
structure TcpListeners where
  disposed : Bool
  listeners : List Nat
  socketCloseCount : Nat
  conns : List Nat
  errors : List Nat
  chansClosed : Bool
deriving DecidableEq

/-- `TcpListeners.Close` (lines 222-253): if already disposed, return
`ListenerDisposed` leaving everything untouched (in particular no socket is
re-closed); otherwise mark disposed, close every bound socket once, wait for
the accept goroutines (so nothing is offered on the channels any more) and
close both channels, returning nil. -/
def TcpListeners.Close (v : TcpListeners) : TcpListeners × Option GoErr :=
  if v.disposed then (v, some GoErr.listenerDisposed)
  else
    ({ v with
        disposed := true,
        socketCloseCount := v.socketCloseCount + v.listeners.length,
        conns := [], errors := [], chansClosed := true }, none)

/-- Possible results of `TcpListeners.AcceptTCP`. -/
inductive AcceptResult
  | ok (c : Nat)
  | acceptErr (e : Nat)
  | disposedErr
deriving DecidableEq

/-- Step relation for `TcpListeners.AcceptTCP` (lines 190-218): the locked
dispose check returns `ListenerDisposed` first; otherwise the `select` may
deliver an offered connection, an offered error, observe the closing signal
or the closed channels (both reported as `ListenerDisposed`). The relation
keeps the nondeterminism of the Go `select`. -/
inductive AcceptStep : TcpListeners → AcceptResult → Prop
  | disposed {v} : v.disposed = true → AcceptStep v AcceptResult.disposedErr
  | gotConn {v c} : v.disposed = false → c ∈ v.conns → AcceptStep v (AcceptResult.ok c)
  | gotErr {v e} : v.disposed = false → e ∈ v.errors → AcceptStep v (AcceptResult.acceptErr e)
  | chanClosed {v} : v.disposed = false → v.chansClosed = true →
      AcceptStep v AcceptResult.disposedErr

/-! ## HTTP suffix routing (src/unnamed/part_000 lines 308-342) -/

/-- Where `proxy.serveHttp` sends a request. `unhandled` is the fall-through
at the end of the function: neither proxy is invoked. -/
inductive Route
  | notReady
  | hlsPlus
  | httpStream
  | unhandled
deriving DecidableEq

def suffM3u8 : GoStr := ['.', 'm', '3', 'u', '8']
def suffTs : GoStr := ['.', 't', 's']
def suffFlv : GoStr := ['.', 'f', 'l', 'v']
def suffAac : GoStr := ['.', 'a', 'a', 'c']
def suffMp3 : GoStr := ['.', 'm', 'p', '3']
def suffXml : GoStr := ['.', 'x', 'm', 'l']

/-- The suffix list passed to `hasAnySuffixes` at source line 338. -/
def streamSuffixes : List GoStr := [suffFlv, suffTs, suffAac, suffMp3, suffXml]

/-- `hasAnySuffixes`: true iff some suffix of the list matches. -/
def hasAnySuffixes (s : GoStr) (suffixes : List GoStr) : Bool :=
  suffixes.any (fun suffix => goHasSuffix s suffix)

/-- `proxy.serveHttp` routing decision given the request path and its
`shp_uuid` query parameter: error when no backend is active; `.m3u8`, or `.ts`
with a non-empty `shp_uuid`, goes to the HLS+ proxy; the listed media suffixes
go to plain stream forwarding; anything else falls through unhandled. -/
def proxy.serveHttp (v : proxy) (path shpUuid : GoStr) : Route :=
  if v.activePort ≤ 0 then Route.notReady
  else if goHasSuffix path suffM3u8 ||
      (goHasSuffix path suffTs && decide (0 < shpUuid.length)) then Route.hlsPlus
  else if hasAnySuffixes path streamSuffixes then Route.httpStream
  else Route.unhandled

/-! ## Port allocator (tests in src/unnamed/part_002 lines 327-378) -/

/-- Errors of the port-allocator contract (spec §4.1 / §7). -/
inductive PoolError
  | invalidArgument
  | exhausted
deriving DecidableEq

/-- Modelled from the spec: the `PortPool` implementation (`NewPortPool`,
`Alloc`, `Free`) is not under src/ — only its tests (`TestPortPool_*`) are.
Per spec §3 the pool has fixed `lowBound`/`highBound` and a free/allocated
partition; we track the currently-free ports as an ascending duplicate-free
list, initially the declared range. -/
structure PortPool where
  lowBound : Int
  highBound : Int
  freePorts : List Int
deriving DecidableEq

/-- The ascending list `[low..high]` (empty when `high < low`). -/
def rangeIntList (low high : Int) : List Int :=
  (List.range (high - low + 1).toNat).map (fun i => low + (i : Int))

/-- Modelled from the spec: `NewPortPool(low, high)` starts with the whole
declared range free. -/
def NewPortPool (low high : Int) : PortPool :=
  { lowBound := low, highBound := high, freePorts := rangeIntList low high }

/-- Insert into an ascending duplicate-free list, keeping it so. -/
def sortedInsert (x : Int) : List Int → List Int
  | [] => [x]
  | a :: t => if x < a then x :: a :: t else if x = a then a :: t else a :: sortedInsert x t

/-- Modelled from the spec: `Free(port)` unconditionally marks `port` free,
idempotently, even when it lies outside `[lowBound, highBound]` (spec §3 note
and §4.1). -/
def PortPool.Free (p : PortPool) (port : Int) : PortPool :=
  { p with freePorts := sortedInsert port p.freePorts }

/-- Scan the ascending free list for the first start of a run of `n`
consecutive free integers. -/
def findRunAux (free : List Int) (n : Nat) : List Int → Option Int
  | [] => none
  | a :: t =>
    if (List.range n).all (fun k => decide ((a + (k : Int)) ∈ free)) then some a
    else findRunAux free n t

/-- Modelled from the spec: `Alloc(n)` fails with `InvalidArgument` on `n = 0`;
otherwise it scans the full addressable space (declared range plus any
previously freed outside ports, i.e. the free list) in ascending order for the
first run of `n` consecutive free integers, marks them allocated and returns
them ascending; with no such run it fails with `Exhausted` changing nothing
(spec §4.1, §8). -/
def PortPool.Alloc (p : PortPool) (n : Nat) : Except PoolError (List Int × PortPool) :=
  if n = 0 then Except.error PoolError.invalidArgument
  else
    match findRunAux p.freePorts n p.freePorts with
    | some a =>
      Except.ok ((List.range n).map (fun k => a + (k : Int)),
        { p with freePorts :=
            p.freePorts.filter (fun x => decide (x ∉ (List.range n).map (fun k => a + (k : Int)))) })
    | none => Except.error PoolError.exhausted

/-! ## HLS+ affinity proxy (src/unnamed/part_000 lines 113-256) -/

/-- `hlsPlusVirtualConnection`: identifiers fixed at creation, a dedicated
backend transport (represented by an id; `createHttpTransport` makes a fresh
one per connection), and the last-touch timestamp. -/
structure hlsPlusVirtualConnection where
  uuid : GoStr
  xpsid : GoStr
  remoteAddr : GoStr
  transport : Nat
  lastUpdate : Nat
deriving DecidableEq

/-- `NewHlsPlusVirtualConnection(uuid, xpsid, addr)` at time `now` with a
fresh transport id. -/
def NewHlsPlusVirtualConnection (uuid xpsid addr : GoStr) (now tid : Nat) :
    hlsPlusVirtualConnection :=
  { uuid := uuid, xpsid := xpsid, remoteAddr := addr, transport := tid, lastUpdate := now }

/-- A Go `map[string]*hlsPlusVirtualConnection` as an association list of
keys to indices into the arena of connection records. -/
abbrev ConnMap := List (GoStr × Nat)

/-- Go map read `m[k]`. -/
def alookup (l : ConnMap) (k : GoStr) : Option Nat :=
  match l with
  | [] => none
  | (k', v) :: t => if k' = k then some v else alookup t k

/-- Go map write `m[k] = v` (replace or add). -/
def aInsert (l : ConnMap) (k : GoStr) (v : Nat) : ConnMap :=
  match l with
  | [] => [(k, v)]
  | (k', v') :: t => if k' = k then (k, v) :: t else (k', v') :: aInsert t k v

/-- Go map `delete(m, k)`. -/
def aErase (l : ConnMap) (k : GoStr) : ConnMap :=
  match l with
  | [] => []
  | e :: t => if e.1 = k then aErase t k else e :: aErase t k

/-- `hlsPlusProxy`: the arena of virtual connections (Go pointers become
indices, so aliasing between the three maps is preserved) and the three
index maps of `serve`/`cleanup`. -/
structure hlsPlusProxy where
  conns : List hlsPlusVirtualConnection
  virtualConns : ConnMap
  appConns : ConnMap
  tcpConns : ConnMap
deriving DecidableEq

/-- `NewHlsPlusProxy`: all maps empty. -/
def NewHlsPlusProxy : hlsPlusProxy :=
  { conns := [], virtualConns := [], appConns := [], tcpConns := [] }

/-- An inbound HLS+ request as `serve` reads it: the `shp_uuid` and
`shp_xpsid` query parameters, the `X-Playback-Session-Id` header, and
`r.RemoteAddr`. -/
structure HlsRequest where
  shpUuid : GoStr
  shpXpsid : GoStr
  xPlaybackSessionId : GoStr
  remoteAddr : GoStr
deriving DecidableEq

/-- Source lines 173-175: the playback-session id is the `shp_xpsid` query
parameter, falling back to the `X-Playback-Session-Id` header when empty. -/
def HlsRequest.xpsid (r : HlsRequest) : GoStr :=
  if r.shpXpsid.length = 0 then r.xPlaybackSessionId else r.shpXpsid

/-- Identification chain of `serve` (source lines 178-192): uuid index first,
then — as written at line 185 — `v.appConns[uuid]` (the map whose entries are
inserted under `xpsid` is read with `uuid`), then the address index. -/
def hlsPlusProxy.identify (v : hlsPlusProxy) (uuid xpsid addr : GoStr) : Option Nat :=
  match (if 0 < uuid.length then alookup v.virtualConns uuid else none) with
  | some i => some i
  | none =>
    match (if 0 < xpsid.length then alookup v.appConns uuid else none) with
    | some i => some i
    | none => if 0 < addr.length then alookup v.tcpConns addr else none

/-- Arena write for `vconn.lastUpdate = time.Now()`. -/
def touchConn (cs : List hlsPlusVirtualConnection) (i now : Nat) :
    List hlsPlusVirtualConnection :=
  match cs[i]? with
  | some c => cs.set i { c with lastUpdate := now }
  | none => cs

/-- Cache update of `serve` (source lines 196-205): each of the three maps
gets the resolved connection under the request's identifier when non-empty.
The three writes touch three different maps, so the sequential Go statements
are embedded as one simultaneous record update. -/
def cacheInsert (v : hlsPlusProxy) (uuid xpsid addr : GoStr) (i : Nat) : hlsPlusProxy :=
  { v with
      virtualConns := if 0 < uuid.length then aInsert v.virtualConns uuid i else v.virtualConns,
      appConns := if 0 < xpsid.length then aInsert v.appConns xpsid i else v.appConns,
      tcpConns := if 0 < addr.length then aInsert v.tcpConns addr i else v.tcpConns }

/-- `hlsPlusProxy.serve` (lines 163-223): resolve the virtual connection (or
create one with a fresh transport), stamp `lastUpdate := now`, update the
caches; returns the new state and the index of the virtual connection that
served the request (whose transport the reverse proxy then uses). -/
def hlsPlusProxy.serve (v : hlsPlusProxy) (r : HlsRequest) (now : Nat) :
    hlsPlusProxy × Nat :=
  match v.identify r.shpUuid r.xpsid r.remoteAddr with
  | some i =>
    (cacheInsert { v with conns := touchConn v.conns i now } r.shpUuid r.xpsid r.remoteAddr i, i)
  | none =>
    (cacheInsert
      { v with conns := v.conns ++
          [NewHlsPlusVirtualConnection r.shpUuid r.xpsid r.remoteAddr now v.conns.length] }
      r.shpUuid r.xpsid r.remoteAddr v.conns.length, v.conns.length)

/-- One iteration of the `cleanup` loop (source lines 238-255) for the entry
`e` of `tcpConns`: skip connections seen after the deadline
(`conn.lastUpdate.After(die)`), otherwise delete the connection from each map
under its own stored identifier when non-empty. The three deletes touch three
different maps, embedded as one simultaneous record update. -/
def cleanupStep (die : Nat) (v : hlsPlusProxy) (e : GoStr × Nat) : hlsPlusProxy :=
  match v.conns[e.2]? with
  | none => v
  | some c =>
    if die < c.lastUpdate then v
    else
      { v with
          tcpConns := if 0 < c.remoteAddr.length then aErase v.tcpConns c.remoteAddr
            else v.tcpConns,
          appConns := if 0 < c.xpsid.length then aErase v.appConns c.xpsid else v.appConns,
          virtualConns := if 0 < c.uuid.length then aErase v.virtualConns c.uuid
            else v.virtualConns }

/-- One execution of the `cleanup` range loop (source lines 238-255) visiting
the pre-sweep `tcpConns` entries in the order `ord`. Per the Go specification
a map entry removed before the iteration reaches it is not produced, so each
body run is guarded by the entry's key still being present in the current
map; a Go map has unique keys and the sweep only deletes, never inserts, so
key presence identifies the entry and its unchanged value. -/
def cleanupRun (die : Nat) (v : hlsPlusProxy) : List (GoStr × Nat) → hlsPlusProxy
  | [] => v
  | e :: rest =>
    if (alookup v.tcpConns e.1).isSome then cleanupRun die (cleanupStep die v e) rest
    else cleanupRun die v rest

/-- `hlsPlusProxy.cleanup` with deadline `die` (the source computes
`die = now - hlsPlusSessionTimeout`) under the map iteration order `ord`:
Go's map iteration order is unspecified, so the theorems quantify over every
`ord` that is a permutation of the pre-sweep `tcpConns` entries. -/
def hlsPlusProxy.cleanup (v : hlsPlusProxy) (die : Nat) (ord : List (GoStr × Nat)) :
    hlsPlusProxy :=
  cleanupRun die v ord

/-- Concrete two-request scenario for the idle-sweep claims: a request with no
identifiers from address `A` creates connection 0 (stored uuid and xpsid
empty, stored remoteAddr `A`), then a request carrying uuid `U` from the same
address `A` resolves it by address and additionally indexes it under `U` in
the uuid map. Its `tcpConns` is the single self-keyed entry `(A, 0)`. -/
def sweepScenario : hlsPlusProxy :=
  ((NewHlsPlusProxy.serve ⟨[], [], [], ['A']⟩ 0).1.serve ⟨['U'], [], [], ['A']⟩ 0).1

/-! ## Theorems -/

/-- Helper for C3: with no active backend every loop iteration returns before
dialing and sleeps once. -/
theorem rtmpConnectLoop_no_port {activePort : Int} {dialOk : Nat → Bool}
    (h : activePort ≤ 0) :
    ∀ n i d s, rtmpConnectLoop activePort dialOk n i ⟨none, d, s⟩ = ⟨none, d, s + n⟩ := by
  intro n
  induction n with
  | zero => intro i d s; rfl
  | succ n ih =>
    intro i d s
    rw [rtmpConnectLoop]
    simp only [if_pos h]
    rw [ih]
    congr 1
    omega

/-- C3: for every accepted RTMP client, when the active backend port is unset
(zero or negative) the connect loop issues no dial at all, ends with no
backend (so `serveRtmp` returns and the deferred close drops the client), and
its total sleeping is exactly the retry budget `RetryMax * RetryBackend`,
never past it. -/
theorem C3_no_backend_no_dial (activePort : Int) (dialOk : Nat → Bool)
    (h : activePort ≤ 0) :
    (serveRtmpConnect activePort dialOk).dials = 0 ∧
    (serveRtmpConnect activePort dialOk).backend = none ∧
    serveRtmpClosesWithoutBackend activePort dialOk = true ∧
    (serveRtmpConnect activePort dialOk).sleeps * RetryBackendSeconds =
      RetryMax * RetryBackendSeconds := by
  have e : serveRtmpConnect activePort dialOk = ⟨none, 0, 3⟩ := by
    unfold serveRtmpConnect
    rw [rtmpConnectLoop_no_port h]
    rfl
  refine ⟨?_, ?_, ?_, ?_⟩ <;>
    simp [serveRtmpClosesWithoutBackend, e, RetryMax, RetryBackendSeconds]

/-- Witness for C3 at `activePort = 0` with a dial oracle that would always
succeed: still no dial is attempted. -/
theorem C3_no_backend_no_dial_witness :
    (serveRtmpConnect 0 (fun _ => true)).dials = 0 ∧
    (serveRtmpConnect 0 (fun _ => true)).backend = none :=
  ⟨(C3_no_backend_no_dial 0 (fun _ => true) (by decide)).1,
   (C3_no_backend_no_dial 0 (fun _ => true) (by decide)).2.1⟩

/-- C4 counterexample: the control API accepts `?http=-1` — `Atoi` parses it,
the handler answers `Success` and installs `-1` as the active port, so the
claim that only a positive integer is accepted fails on the code. -/
theorem C4_counterexample :
    (proxy.serveChangeBackendApi ⟨[], 0⟩ ['-', '1']).2 = true ∧
    (proxy.serveChangeBackendApi ⟨[], 0⟩ ['-', '1']).1.activePort = -1 := by
  decide

/-- C4 (amended): the handler validates only that the parameter is present and
`Atoi`-parseable: a missing or non-numeric parameter is rejected with an error
response leaving the state unchanged, and any parseable integer — positive or
not — is accepted as the new active port (and recorded among the known
ports). -/
theorem C4_amended_validation (s : proxy) (q : GoStr) :
    ((q.length = 0 ∨ atoi q = none) → s.serveChangeBackendApi q = (s, false)) ∧
    (∀ p : Int, atoi q = some p →
      (s.serveChangeBackendApi q).2 = true ∧
      (s.serveChangeBackendApi q).1.activePort = p ∧
      p ∈ (s.serveChangeBackendApi q).1.ports) := by
  constructor
  · rintro (h0 | hn)
    · simp [proxy.serveChangeBackendApi, h0]
    · by_cases h0 : q.length = 0
      · simp [proxy.serveChangeBackendApi, h0]
      · simp [proxy.serveChangeBackendApi, h0, hn]
  · intro p hp
    have h0 : ¬(q.length = 0) := by
      intro h0
      rw [List.length_eq_zero] at h0
      subst h0
      simp [atoi, atoiCore] at hp
    simp only [proxy.serveChangeBackendApi, if_neg h0, hp]
    refine ⟨trivial, trivial, ?_⟩
    by_cases hm : hasProxyed s.ports p = true
    · rw [if_pos hm]
      simpa [hasProxyed] using hm
    · rw [if_neg hm]
      simp

/-- Witness for C4 (amended): the empty parameter is rejected unchanged and
`?http=80` is accepted with active port 80. -/
theorem C4_amended_validation_witness :
    proxy.serveChangeBackendApi ⟨[], 0⟩ [] = (⟨[], 0⟩, false) ∧
    (proxy.serveChangeBackendApi ⟨[], 0⟩ ['8', '0']).1.activePort = 80 :=
  ⟨(C4_amended_validation ⟨[], 0⟩ []).1 (Or.inl rfl),
   ((C4_amended_validation ⟨[], 0⟩ ['8', '0']).2 80 (by decide)).2.1⟩

/-- C6: once the first `Close()` completes (returning nil), the multiplexer is
disposed: every subsequent `AcceptTCP` outcome is the `ListenerDisposed`
error, a second `Close()` returns `ListenerDisposed` leaving the state — in
particular the count of underlying socket closes — untouched, and the
disposed flag never resets. -/
theorem C6_disposed_terminal (v : TcpListeners) (h : v.disposed = false) :
    (v.Close).2 = none ∧
    (v.Close).1.disposed = true ∧
    (∀ r, AcceptStep (v.Close).1 r → r = AcceptResult.disposedErr) ∧
    (v.Close).1.Close = ((v.Close).1, some GoErr.listenerDisposed) ∧
    ((v.Close).1.Close).1.socketCloseCount = (v.Close).1.socketCloseCount := by
  have h1 : (v.Close).1.disposed = true := by simp [TcpListeners.Close, h]
  refine ⟨by simp [TcpListeners.Close, h], h1, ?_, ?_, ?_⟩
  · intro r hr
    cases hr <;> simp_all
  · rw [TcpListeners.Close, if_pos h1]
  · rw [TcpListeners.Close, if_pos h1]

/-- Witness for C6 on a two-socket listener: the second close is a no-op
returning `ListenerDisposed`. -/
theorem C6_disposed_terminal_witness :
    ((⟨false, [0, 1], 0, [], [], false⟩ : TcpListeners).Close).1.Close =
      (((⟨false, [0, 1], 0, [], [], false⟩ : TcpListeners).Close).1,
        some GoErr.listenerDisposed) :=
  (C6_disposed_terminal ⟨false, [0, 1], 0, [], [], false⟩ rfl).2.2.2.1

/-- C10: for every byte string of length at most 65535, `MarshalBinary`
followed by `UnmarshalBinary` returns the original string, and the encoding
has length `Size() = 1 + 2 + len(s)`. -/
theorem C10_amf0_roundtrip (s : List Nat) (h : s.length ≤ 65535) :
    amf0StringUnmarshal (amf0StringMarshal s) = some s ∧
    (amf0StringMarshal s).length = amf0StringSize s := by
  have hm : s.length % 65536 = s.length := Nat.mod_eq_of_lt (by omega)
  constructor
  · simp only [amf0StringMarshal, amf0StringUnmarshal, hm, MarkerAmf0String, if_pos rfl]
    have hn : s.length / 256 * 256 + s.length % 256 = s.length := by omega
    have hc : ¬(0 < s.length ∧ s = []) := by
      rintro ⟨h1, h2⟩
      subst h2
      simp at h1
    rw [hn, if_neg hc]
    simp
  · simp [amf0StringMarshal, amf0StringSize]
    omega

/-- Witness for C10 on the three-byte string `[1, 2, 3]`. -/
theorem C10_amf0_roundtrip_witness :
    amf0StringUnmarshal (amf0StringMarshal [1, 2, 3]) = some [1, 2, 3] ∧
    (amf0StringMarshal [1, 2, 3]).length = amf0StringSize [1, 2, 3] :=
  C10_amf0_roundtrip [1, 2, 3] (by decide)

/-- C5: in every state of the backend selector reachable by control-API calls,
a non-zero `activePort` is a member of `ports`, and a further API call never
removes a port from `ports`. -/
theorem C5_selector_invariant (s : proxy) (h : reachableProxy s) :
    (s.activePort ≠ 0 → s.activePort ∈ s.ports) ∧
    (∀ q : GoStr, ∀ p ∈ s.ports, p ∈ (s.serveChangeBackendApi q).1.ports) := by
  have mono : ∀ (t : proxy) (q : GoStr), ∀ p ∈ t.ports,
      p ∈ (t.serveChangeBackendApi q).1.ports := by
    intro t q p hp
    unfold proxy.serveChangeBackendApi
    by_cases h0 : q.length = 0
    · simpa [h0] using hp
    · simp only [if_neg h0]
      cases hq : atoi q with
      | none => simpa using hp
      | some port =>
        by_cases hm : hasProxyed t.ports port = true
        · simpa [hm] using hp
        · simp [hm, List.mem_append, hp]
  refine ⟨?_, mono s⟩
  induction h with
  | init => simp
  | step t q ht ih =>
    intro hne
    by_cases h0 : q.length = 0
    · simp only [proxy.serveChangeBackendApi, if_pos h0] at hne ⊢
      exact ih hne
    · cases hq : atoi q with
      | none =>
        simp only [proxy.serveChangeBackendApi, if_neg h0, hq] at hne ⊢
        exact ih hne
      | some port =>
        simp only [proxy.serveChangeBackendApi, if_neg h0, hq] at hne ⊢
        by_cases hm : hasProxyed t.ports port = true
        · rw [if_pos hm]
          simpa [hasProxyed] using hm
        · rw [if_neg hm]
          simp

/-- Witness for C5: after setting port 80 from the initial state, the active
port is a known port. -/
theorem C5_selector_invariant_witness :
    ((proxy.serveChangeBackendApi ⟨[], 0⟩ ['8', '0']).1).activePort ∈
      ((proxy.serveChangeBackendApi ⟨[], 0⟩ ['8', '0']).1).ports :=
  (C5_selector_invariant _
    (reachableProxy.step ⟨[], 0⟩ ['8', '0'] reachableProxy.init)).1 (by decide)

/-- Helper for C7: a matched suffix fixes the last character of the path. -/
theorem getLast?_of_goHasSuffix {p suffix : GoStr} (h : goHasSuffix p suffix = true)
    (hne : suffix ≠ []) : p.getLast? = suffix.getLast? := by
  rw [goHasSuffix, List.isSuffixOf_iff_suffix] at h
  obtain ⟨t, ht⟩ := h
  rw [← ht]
  exact List.getLast?_append_of_ne_nil t hne

/-- Helper for C7: suffixes with different last characters cannot both match. -/
theorem goHasSuffix_disjoint {p s1 s2 : GoStr} (h1 : goHasSuffix p s1 = true)
    (hne1 : s1 ≠ []) (hne2 : s2 ≠ []) (hl : s1.getLast? ≠ s2.getLast?) :
    goHasSuffix p s2 = false := by
  by_contra hb
  rw [Bool.not_eq_false] at hb
  apply hl
  rw [← getLast?_of_goHasSuffix h1 hne1, ← getLast?_of_goHasSuffix hb hne2]

/-- C7: with a ready backend, routing is by URL suffix exactly as claimed: a
`.m3u8` path always takes the HLS+ affinity path; a `.ts` path takes it iff
the request carries a non-empty `shp_uuid`, and otherwise goes to plain stream
forwarding; `.flv`, `.aac`, `.mp3` and `.xml` paths go to plain stream
forwarding; any path matching none of these suffixes is forwarded to neither
proxy. -/
theorem C7_suffix_routing (v : proxy) (path shpUuid : GoStr) (h : 0 < v.activePort) :
    (goHasSuffix path suffM3u8 = true → v.serveHttp path shpUuid = Route.hlsPlus) ∧
    (goHasSuffix path suffTs = true →
      ((v.serveHttp path shpUuid = Route.hlsPlus ↔ 0 < shpUuid.length) ∧
       (shpUuid.length = 0 → v.serveHttp path shpUuid = Route.httpStream))) ∧
    (∀ s ∈ [suffFlv, suffAac, suffMp3, suffXml], goHasSuffix path s = true →
      v.serveHttp path shpUuid = Route.httpStream) ∧
    ((∀ s ∈ streamSuffixes ++ [suffM3u8], goHasSuffix path s = false) →
      v.serveHttp path shpUuid = Route.unhandled) := by
  have hnp : ¬(v.activePort ≤ 0) := by omega
  refine ⟨?_, ?_, ?_, ?_⟩
  · intro h1
    simp [proxy.serveHttp, hnp, h1]
  · intro hts
    by_cases hu : 0 < shpUuid.length
    · have he : v.serveHttp path shpUuid = Route.hlsPlus := by
        simp [proxy.serveHttp, hnp, hts, hu]
      exact ⟨by rw [he]; simp [hu], fun h0 => absurd hu (by omega)⟩
    · have hu0 : shpUuid.length = 0 := by omega
      have hm : goHasSuffix path suffM3u8 = false :=
        goHasSuffix_disjoint hts (by decide) (by decide) (by decide)
      have hstream : hasAnySuffixes path streamSuffixes = true := by
        simp only [hasAnySuffixes, streamSuffixes, List.any_cons, hts]
        simp
      have he : v.serveHttp path shpUuid = Route.httpStream := by
        simp [proxy.serveHttp, hnp, hm, hts, hu0, hstream]
      refine ⟨by rw [he]; simp [hu0], fun _ => he⟩
  · intro s hs hsuffix
    simp only [List.mem_cons, List.not_mem_nil, or_false] at hs
    rcases hs with rfl | rfl | rfl | rfl <;>
    · have hm : goHasSuffix path suffM3u8 = false :=
        goHasSuffix_disjoint hsuffix (by decide) (by decide) (by decide)
      have hts : goHasSuffix path suffTs = false :=
        goHasSuffix_disjoint hsuffix (by decide) (by decide) (by decide)
      have hstream : hasAnySuffixes path streamSuffixes = true := by
        simp [hasAnySuffixes, streamSuffixes, hsuffix]
      simp [proxy.serveHttp, hnp, hm, hts, hstream]
  · intro hall
    have hm := hall suffM3u8 (by decide)
    have hts := hall suffTs (by decide)
    have hflv := hall suffFlv (by decide)
    have haac := hall suffAac (by decide)
    have hmp3 := hall suffMp3 (by decide)
    have hxml := hall suffXml (by decide)
    simp [proxy.serveHttp, hnp, hasAnySuffixes, streamSuffixes, hm, hts, hflv,
      haac, hmp3, hxml]

/-- Witness for C7: with backend 8080 active, `a.m3u8` routes to HLS+ and a
`.ts` path without `shp_uuid` routes to plain stream forwarding. -/
theorem C7_suffix_routing_witness :
    proxy.serveHttp ⟨[8080], 8080⟩ ['a', '.', 'm', '3', 'u', '8'] [] = Route.hlsPlus ∧
    proxy.serveHttp ⟨[8080], 8080⟩ ['a', '.', 't', 's'] [] = Route.httpStream :=
  ⟨(C7_suffix_routing ⟨[8080], 8080⟩ ['a', '.', 'm', '3', 'u', '8'] [] (by decide)).1
      (by decide),
   ((C7_suffix_routing ⟨[8080], 8080⟩ ['a', '.', 't', 's'] [] (by decide)).2.1
      (by decide)).2 rfl⟩

/-- C8: freeing a port into an otherwise-exhausted pool makes the next
single-port allocation return exactly that port, whatever the port and the
pool bounds (so in particular for a port outside the declared range); and the
concrete scenario of `TestPortPool_Free`: a `[1,10]` pool exhausted by
`Alloc(10)`, then `Free(11)` — a port above the declared high bound — then
`Alloc(1)` returns `[11]`. -/
theorem C8_free_then_alloc (p : PortPool) (x : Int) (h : p.freePorts = []) :
    (p.Free x).Alloc 1 = Except.ok ([x], { p with freePorts := [] }) ∧
    (NewPortPool 1 10).Alloc 10 =
      Except.ok ([1, 2, 3, 4, 5, 6, 7, 8, 9, 10], ⟨1, 10, []⟩) ∧
    ((⟨1, 10, []⟩ : PortPool).Free 11).Alloc 1 = Except.ok ([11], ⟨1, 10, []⟩) ∧
    (⟨1, 10, []⟩ : PortPool).highBound < 11 := by
  refine ⟨?_, by rfl, by rfl, by decide⟩
  have hr1 : List.range 1 = [0] := rfl
  simp [PortPool.Free, PortPool.Alloc, h, sortedInsert, findRunAux, hr1]

/-- Witness for C8 with the exhausted `[1,10]` pool and the out-of-range
port 11. -/
theorem C8_free_then_alloc_witness :
    ((⟨1, 10, []⟩ : PortPool).Free 11).Alloc 1 =
      Except.ok ([11], (⟨1, 10, []⟩ : PortPool)) :=
  (C8_free_then_alloc ⟨1, 10, []⟩ 11 rfl).1

/-- Helper: a sweep step never modifies the connection arena. -/
theorem cleanupStep_conns (die : Nat) (v : hlsPlusProxy) (e : GoStr × Nat) :
    (cleanupStep die v e).conns = v.conns := by
  unfold cleanupStep
  split
  · rfl
  · split
    · rfl
    · rfl

/-- Helper: a sweep step leaves `tcpConns` alone or erases one key from it. -/
theorem cleanupStep_tcpConns (die : Nat) (v : hlsPlusProxy) (e : GoStr × Nat) :
    (cleanupStep die v e).tcpConns = v.tcpConns ∨
    ∃ a, (cleanupStep die v e).tcpConns = aErase v.tcpConns a := by
  unfold cleanupStep
  split
  · left; rfl
  · split
    · left; rfl
    · rename_i c heq hnd
      by_cases hr : 0 < c.remoteAddr.length
      · right
        exact ⟨c.remoteAddr, by simp [hr]⟩
      · left
        simp [hr]

/-- Helper: a sweep step leaves `appConns` alone or erases one key from it. -/
theorem cleanupStep_appConns (die : Nat) (v : hlsPlusProxy) (e : GoStr × Nat) :
    (cleanupStep die v e).appConns = v.appConns ∨
    ∃ a, (cleanupStep die v e).appConns = aErase v.appConns a := by
  unfold cleanupStep
  split
  · left; rfl
  · split
    · left; rfl
    · rename_i c heq hnd
      by_cases hx : 0 < c.xpsid.length
      · right
        exact ⟨c.xpsid, by simp [hx]⟩
      · left
        simp [hx]

/-- Helper: a sweep step leaves `virtualConns` alone or erases one key. -/
theorem cleanupStep_virtualConns (die : Nat) (v : hlsPlusProxy) (e : GoStr × Nat) :
    (cleanupStep die v e).virtualConns = v.virtualConns ∨
    ∃ a, (cleanupStep die v e).virtualConns = aErase v.virtualConns a := by
  unfold cleanupStep
  split
  · left; rfl
  · split
    · left; rfl
    · rename_i c heq hnd
      by_cases hu : 0 < c.uuid.length
      · right
        exact ⟨c.uuid, by simp [hu]⟩
      · left
        simp [hu]

/-- Helper: erasing a key makes its lookup miss. -/
theorem alookup_aErase_self (l : ConnMap) (k : GoStr) : alookup (aErase l k) k = none := by
  induction l with
  | nil => rfl
  | cons e t ih =>
    by_cases he : e.1 = k
    · simp [aErase, he, ih]
    · simp [aErase, he, alookup, ih]

/-- Helper: erasing never makes a missing lookup hit. -/
theorem alookup_aErase_none (l : ConnMap) (k k' : GoStr) (h : alookup l k = none) :
    alookup (aErase l k') k = none := by
  induction l with
  | nil => rfl
  | cons e t ih =>
    have he : ¬(e.1 = k) := by
      intro hek
      simp [alookup, hek] at h
    have ht : alookup t k = none := by
      simpa [alookup, he] using h
    by_cases he' : e.1 = k'
    · simp [aErase, he', ih ht]
    · simp [aErase, he', alookup, he, ih ht]

/-- Helper: a sweep step preserves a miss in `tcpConns`. -/
theorem cleanupStep_tcp_none (die : Nat) (v : hlsPlusProxy) (e : GoStr × Nat)
    (k : GoStr) (h : alookup v.tcpConns k = none) :
    alookup (cleanupStep die v e).tcpConns k = none := by
  rcases cleanupStep_tcpConns die v e with he | ⟨a, he⟩
  · rw [he]; exact h
  · rw [he]; exact alookup_aErase_none _ _ _ h

/-- Helper: a sweep step preserves a miss in `appConns`. -/
theorem cleanupStep_app_none (die : Nat) (v : hlsPlusProxy) (e : GoStr × Nat)
    (k : GoStr) (h : alookup v.appConns k = none) :
    alookup (cleanupStep die v e).appConns k = none := by
  rcases cleanupStep_appConns die v e with he | ⟨a, he⟩
  · rw [he]; exact h
  · rw [he]; exact alookup_aErase_none _ _ _ h

/-- Helper: a sweep step preserves a miss in `virtualConns`. -/
theorem cleanupStep_virtual_none (die : Nat) (v : hlsPlusProxy) (e : GoStr × Nat)
    (k : GoStr) (h : alookup v.virtualConns k = none) :
    alookup (cleanupStep die v e).virtualConns k = none := by
  rcases cleanupStep_virtualConns die v e with he | ⟨a, he⟩
  · rw [he]; exact h
  · rw [he]; exact alookup_aErase_none _ _ _ h

/-- Helper: any run of the sweep preserves a miss in `tcpConns` (each visited
entry is either skipped or processed by `cleanupStep`, which only erases). -/
theorem cleanupRun_tcp_none (die : Nat) (l : List (GoStr × Nat)) :
    ∀ (v : hlsPlusProxy) (k : GoStr), alookup v.tcpConns k = none →
      alookup (cleanupRun die v l).tcpConns k = none := by
  induction l with
  | nil => intro v k h; simpa using h
  | cons e t ih =>
    intro v k h
    simp only [cleanupRun]
    split
    · exact ih _ _ (cleanupStep_tcp_none die v e k h)
    · exact ih _ _ h

/-- Helper: any run of the sweep preserves a miss in `appConns`. -/
theorem cleanupRun_app_none (die : Nat) (l : List (GoStr × Nat)) :
    ∀ (v : hlsPlusProxy) (k : GoStr), alookup v.appConns k = none →
      alookup (cleanupRun die v l).appConns k = none := by
  induction l with
  | nil => intro v k h; simpa using h
  | cons e t ih =>
    intro v k h
    simp only [cleanupRun]
    split
    · exact ih _ _ (cleanupStep_app_none die v e k h)
    · exact ih _ _ h

/-- Helper: any run of the sweep preserves a miss in `virtualConns`. -/
theorem cleanupRun_virtual_none (die : Nat) (l : List (GoStr × Nat)) :
    ∀ (v : hlsPlusProxy) (k : GoStr), alookup v.virtualConns k = none →
      alookup (cleanupRun die v l).virtualConns k = none := by
  induction l with
  | nil => intro v k h; simpa using h
  | cons e t ih =>
    intro v k h
    simp only [cleanupRun]
    split
    · exact ih _ _ (cleanupStep_virtual_none die v e k h)
    · exact ih _ _ h

/-- Helper: the sweep step on an expired connection erases its stored keys. -/
theorem cleanupStep_hits (die : Nat) (v : hlsPlusProxy) (k : GoStr) (i : Nat)
    (c : hlsPlusVirtualConnection) (hc : v.conns[i]? = some c)
    (hd : c.lastUpdate ≤ die) :
    (0 < c.remoteAddr.length →
      alookup (cleanupStep die v (k, i)).tcpConns c.remoteAddr = none) ∧
    (0 < c.xpsid.length →
      alookup (cleanupStep die v (k, i)).appConns c.xpsid = none) ∧
    (0 < c.uuid.length →
      alookup (cleanupStep die v (k, i)).virtualConns c.uuid = none) := by
  have hnd : ¬(die < c.lastUpdate) := by omega
  simp only [cleanupStep, hc, if_neg hnd]
  refine ⟨fun hr => ?_, fun hx => ?_, fun hu => ?_⟩
  · simp only [if_pos hr]
    exact alookup_aErase_self _ _
  · simp only [if_pos hx]
    exact alookup_aErase_self _ _
  · simp only [if_pos hu]
    exact alookup_aErase_self _ _

/-- Helper: the exact key a sweep step may erase from `tcpConns` is the
stored `remoteAddr` of the connection the processed entry points to. -/
theorem cleanupStep_tcpConns_erase (die : Nat) (v : hlsPlusProxy) (e : GoStr × Nat) :
    (cleanupStep die v e).tcpConns = v.tcpConns ∨
    ∃ c', v.conns[e.2]? = some c' ∧
      (cleanupStep die v e).tcpConns = aErase v.tcpConns c'.remoteAddr := by
  unfold cleanupStep
  split
  · left; rfl
  · split
    · left; rfl
    · rename_i c heq hnd
      by_cases hr : 0 < c.remoteAddr.length
      · right
        exact ⟨c, heq, by simp [hr]⟩
      · left
        simp [hr]

/-- Helper: erasing a different key leaves a lookup unchanged. -/
theorem alookup_aErase_ne (l : ConnMap) (k k' : GoStr) (hne : k ≠ k') :
    alookup (aErase l k') k = alookup l k := by
  have hne' : ¬(k' = k) := fun h => hne h.symm
  induction l with
  | nil => rfl
  | cons e t ih =>
    by_cases he' : e.1 = k'
    · have hek : ¬(e.1 = k) := by
        rw [he']
        exact hne'
      simp [aErase, he', alookup, hek, hne', ih]
    · by_cases hek : e.1 = k
      · simp [aErase, he', alookup, hek, hne]
      · simp [aErase, he', alookup, hek, ih]

/-- Helper: a listed entry makes its key's lookup hit. -/
theorem alookup_isSome_of_mem (l : ConnMap) (k : GoStr) (i : Nat)
    (h : (k, i) ∈ l) : (alookup l k).isSome = true := by
  induction l with
  | nil => cases h
  | cons e t ih =>
    by_cases he : e.1 = k
    · simp [alookup, he]
    · rcases List.mem_cons.mp h with he' | ht
      · rw [← he'] at he
        simp at he
      · simp [alookup, he, ih ht]

/-- Helper: a decidable per-entry check implying the no-cross-aliasing
hypothesis (every `tcpConns` entry whose index resolves to a connection has
that connection's stored `remoteAddr` equal to the entry's key). -/
theorem selfKeyed_of_check (v : hlsPlusProxy)
    (h : ∀ p ∈ v.tcpConns,
      ((v.conns[p.2]?).map hlsPlusVirtualConnection.remoteAddr).getD p.1 = p.1) :
    ∀ p ∈ v.tcpConns, ∀ c', v.conns[p.2]? = some c' → c'.remoteAddr = p.1 := by
  intro p hp c' hc'
  have h2 := h p hp
  rw [hc'] at h2
  simpa using h2

/-- Helper: in a state with distinct `tcpConns` keys where every listed entry
is keyed by its connection's stored `remoteAddr`, a run of the sweep over any
list of entries drawn from `tcpConns` that contains the entry of an expired
connection removes that connection's stored keys from all three maps: the
entry cannot be skipped, because the only step that erases its key is its
own. -/
theorem cleanupRun_hits (die : Nat) (v : hlsPlusProxy) (k : GoStr) (i : Nat)
    (c : hlsPlusVirtualConnection)
    (hkeys : (v.tcpConns.map Prod.fst).Nodup)
    (hself : ∀ p ∈ v.tcpConns, ∀ c', v.conns[p.2]? = some c' → c'.remoteAddr = p.1)
    (hmemv : (k, i) ∈ v.tcpConns)
    (hc : v.conns[i]? = some c) (hd : c.lastUpdate ≤ die) :
    ∀ (l : List (GoStr × Nat)) (st : hlsPlusProxy), (k, i) ∈ l →
      (∀ p ∈ l, p ∈ v.tcpConns) → st.conns = v.conns →
      (alookup st.tcpConns k).isSome = true →
      (0 < c.remoteAddr.length →
        alookup (cleanupRun die st l).tcpConns c.remoteAddr = none) ∧
      (0 < c.xpsid.length →
        alookup (cleanupRun die st l).appConns c.xpsid = none) ∧
      (0 < c.uuid.length →
        alookup (cleanupRun die st l).virtualConns c.uuid = none) := by
  intro l
  induction l with
  | nil =>
    intro st hm
    cases hm
  | cons e t ih =>
    intro st hm hsub hconns hkey
    by_cases heq : e = (k, i)
    · subst heq
      simp only [cleanupRun]
      split
      · have hc' : st.conns[i]? = some c := by
          rw [hconns]
          exact hc
        have hits := cleanupStep_hits die st k i c hc' hd
        exact ⟨fun hr => cleanupRun_tcp_none die t _ _ (hits.1 hr),
               fun hx => cleanupRun_app_none die t _ _ (hits.2.1 hx),
               fun hu => cleanupRun_virtual_none die t _ _ (hits.2.2 hu)⟩
      · rename_i hfalse
        exact absurd hkey hfalse
    · have hmt : (k, i) ∈ t := by
        rcases List.mem_cons.mp hm with h1 | h1
        · exact absurd h1.symm heq
        · exact h1
      have hev : e ∈ v.tcpConns := hsub e (List.mem_cons_self e t)
      have hek : e.1 ≠ k := by
        intro h1
        exact heq (List.inj_on_of_nodup_map hkeys hev hmemv h1)
      have hsubt : ∀ p ∈ t, p ∈ v.tcpConns :=
        fun p hp => hsub p (List.mem_cons_of_mem e hp)
      simp only [cleanupRun]
      split
      · refine ih (cleanupStep die st e) hmt hsubt
          (by rw [cleanupStep_conns, hconns]) ?_
        rcases cleanupStep_tcpConns_erase die st e with hsame | ⟨c', hc'e, herase⟩
        · rw [hsame]
          exact hkey
        · have hc'v : v.conns[e.2]? = some c' := by
            rw [← hconns]
            exact hc'e
          have hre : c'.remoteAddr = e.1 := hself e hev c' hc'v
          rw [herase, hre, alookup_aErase_ne st.tcpConns k e.1 (Ne.symm hek)]
          exact hkey
      · exact ih st hmt hsubt hconns hkey

/-- C1: the resolution chain of `serve` reads the playback-session-id index
with the request's uuid (`v.appConns[uuid]`, source line 185) although the
index is written under the xpsid (line 201) and the code's own comments say
lookup is "by uuid, then xpsid, then addr". Concretely: a first request
(uuid `u`, xpsid `X`, address `A`) creates connection 0 and indexes it under
`X` in `appConns`; a second request carrying only xpsid `X` from address `B`
fails to resolve (`identify` yields `none`) and creates a fresh connection 1
instead of reusing 0, contradicting the claimed lookup keyed by the
playback-session-id. The uuid half of the claim does hold: a third request
with the same `shp_uuid` `u` from yet another address resolves to
connection 0. -/
theorem C1_appconns_lookup_bug :
    alookup (NewHlsPlusProxy.serve ⟨['u'], ['X'], [], ['A']⟩ 0).1.appConns ['X'] =
      some 0 ∧
    ((NewHlsPlusProxy.serve ⟨['u'], ['X'], [], ['A']⟩ 0).1.serve
      ⟨[], ['X'], [], ['B']⟩ 1).2 = 1 ∧
    (NewHlsPlusProxy.serve ⟨['u'], ['X'], [], ['A']⟩ 0).1.identify [] ['X'] ['B'] =
      none ∧
    ((NewHlsPlusProxy.serve ⟨['u'], ['X'], [], ['A']⟩ 0).1.serve
      ⟨['u'], [], [], ['C']⟩ 2).2 = 0 := by
  decide

/-- C2 counterexample: a session created by an identifier-less request from
address `A` (connection 0, stored uuid empty) is later reached by a request
carrying uuid `U` from the same address, which inserts it into the uuid index
under `U`. Its `tcpConns` is the single entry `(A, 0)`, so this iteration
order is the only one the map offers. After the sweep with deadline 100 —
which the session, last seen at 0, does not survive — the uuid index still
maps `U` to the expired connection 0, so the claim that an expired session is
absent from all three maps, including entries under identifiers acquired
after creation, fails. -/
theorem C2_counterexample :
    alookup (sweepScenario.cleanup 100 sweepScenario.tcpConns).virtualConns ['U'] =
      some 0 ∧
    sweepScenario.tcpConns = [((['A'] : GoStr), 0)] ∧
    ((sweepScenario.cleanup 100 sweepScenario.tcpConns).conns[0]?).map
      hlsPlusVirtualConnection.lastUpdate = some 0 := by
  decide

/-- C2 (amended): for any iteration order of the pre-sweep `tcpConns` entries
(Go leaves it unspecified, and an entry whose key was deleted before being
reached is skipped), in a state whose `tcpConns` keys are distinct and where
every listed entry is keyed by its connection's stored `remoteAddr` (no
cross-aliasing), every session listed in `tcpConns` whose `lastUpdate` is not
after the deadline is removed from the three index maps under its own stored
creation-time identifiers — its `remoteAddr`, `xpsid` and `uuid` fields, for
those that are non-empty. Index entries inserted under request identifiers
differing from the stored fields may survive (the counterexample), and in
cross-aliased states even stored-identifier entries of an expired session can
survive, because the entry that would delete them can itself be skipped. -/
theorem C2_amended_sweep (v : hlsPlusProxy) (die : Nat) (ord : List (GoStr × Nat))
    (hord : ord.Perm v.tcpConns)
    (hkeys : (v.tcpConns.map Prod.fst).Nodup)
    (hself : ∀ p ∈ v.tcpConns, ∀ c', v.conns[p.2]? = some c' → c'.remoteAddr = p.1)
    (k : GoStr) (i : Nat) (c : hlsPlusVirtualConnection)
    (hmem : (k, i) ∈ v.tcpConns) (hc : v.conns[i]? = some c)
    (hd : c.lastUpdate ≤ die) :
    (0 < c.remoteAddr.length →
      alookup (v.cleanup die ord).tcpConns c.remoteAddr = none) ∧
    (0 < c.xpsid.length →
      alookup (v.cleanup die ord).appConns c.xpsid = none) ∧
    (0 < c.uuid.length →
      alookup (v.cleanup die ord).virtualConns c.uuid = none) :=
  cleanupRun_hits die v k i c hkeys hself hmem hc hd ord v
    (hord.mem_iff.mpr hmem) (fun _ hp => hord.mem_iff.mp hp) rfl
    (alookup_isSome_of_mem v.tcpConns k i hmem)

/-- Witness for C2 (amended) on the self-keyed single-entry scenario: the
expired session's own address entry is gone from `tcpConns` after the sweep
in the (only) iteration order. -/
theorem C2_amended_sweep_witness :
    alookup (sweepScenario.cleanup 100 sweepScenario.tcpConns).tcpConns ['A'] =
      none :=
  (C2_amended_sweep sweepScenario 100 sweepScenario.tcpConns (List.Perm.refl _)
    (by decide) (selfKeyed_of_check sweepScenario (by decide))
    ['A'] 0 ⟨[], [], ['A'], 0, 0⟩ (by decide) (by decide) (by decide)).1 (by decide)

/-- C9: when `serve` resolves a request to an existing virtual connection,
the only change to the connection arena is that connection's `lastUpdate`
timestamp: the arena keeps its length, every connection keeps its `uuid`,
`xpsid`, `remoteAddr` and `transport`, and every other connection is entirely
unchanged. -/
theorem C9_frame_only_lastUpdate (v : hlsPlusProxy) (r : HlsRequest) (now i : Nat)
    (h : v.identify r.shpUuid r.xpsid r.remoteAddr = some i) :
    (v.serve r now).1.conns.length = v.conns.length ∧
    (∀ j : Nat, ((v.serve r now).1.conns[j]?).map hlsPlusVirtualConnection.uuid =
        (v.conns[j]?).map hlsPlusVirtualConnection.uuid) ∧
    (∀ j : Nat, ((v.serve r now).1.conns[j]?).map hlsPlusVirtualConnection.xpsid =
        (v.conns[j]?).map hlsPlusVirtualConnection.xpsid) ∧
    (∀ j : Nat, ((v.serve r now).1.conns[j]?).map hlsPlusVirtualConnection.remoteAddr =
        (v.conns[j]?).map hlsPlusVirtualConnection.remoteAddr) ∧
    (∀ j : Nat, ((v.serve r now).1.conns[j]?).map hlsPlusVirtualConnection.transport =
        (v.conns[j]?).map hlsPlusVirtualConnection.transport) ∧
    (∀ j : Nat, j ≠ i → (v.serve r now).1.conns[j]? = v.conns[j]?) := by
  have e : (v.serve r now).1.conns = touchConn v.conns i now := by
    simp only [hlsPlusProxy.serve, h, cacheInsert]
  rw [e]
  rcases hq : v.conns[i]? with _ | c
  · refine ⟨?_, ?_, ?_, ?_, ?_, ?_⟩ <;> simp [touchConn, hq]
  · obtain ⟨hi, -⟩ := List.getElem?_eq_some_iff.mp hq
    have key : ∀ j : Nat, (touchConn v.conns i now)[j]? =
        if j = i then some { c with lastUpdate := now } else v.conns[j]? := by
      intro j
      by_cases hji : j = i
      · subst hji
        simp [touchConn, hq, List.getElem?_set_self hi]
      · simp [touchConn, hq, hji, List.getElem?_set_ne (Ne.symm hji)]
    refine ⟨by simp [touchConn, hq], ?_, ?_, ?_, ?_, ?_⟩
    · intro j
      rw [key]
      by_cases hji : j = i
      · subst hji
        simp [hq]
      · simp [hji]
    · intro j
      rw [key]
      by_cases hji : j = i
      · subst hji
        simp [hq]
      · simp [hji]
    · intro j
      rw [key]
      by_cases hji : j = i
      · subst hji
        simp [hq]
      · simp [hji]
    · intro j
      rw [key]
      by_cases hji : j = i
      · subst hji
        simp [hq]
      · simp [hji]
    · intro j hji
      rw [key, if_neg hji]

/-- Witness for C9: a repeat request for uuid `u` keeps the stored uuid of
connection 0 unchanged. -/
theorem C9_frame_only_lastUpdate_witness :
    (((NewHlsPlusProxy.serve ⟨['u'], [], [], ['A']⟩ 0).1.serve
        ⟨['u'], [], [], ['A']⟩ 5).1.conns[0]?).map hlsPlusVirtualConnection.uuid =
      ((NewHlsPlusProxy.serve ⟨['u'], [], [], ['A']⟩ 0).1.conns[0]?).map
        hlsPlusVirtualConnection.uuid :=
  (C9_frame_only_lastUpdate (NewHlsPlusProxy.serve ⟨['u'], [], [], ['A']⟩ 0).1
    ⟨['u'], [], [], ['A']⟩ 5 0 (by decide)).2.1 0
